import Mathlib

/-!
Verification of the paginated virtual file store `virtual_file_system.py`.

The program is shallowly embedded: file contents and pages are `List Char`,
file names are `String`, the CPython `dict` (which enumerates keys in
insertion order) is an insertion-ordered association list, Python `int`
page indices are `Int` (negative indices wrap from the end of a list, and
an index that is too negative raises `IndexError`), and every method of
`VirtualFileSystem` becomes a pure function from the store (plus its
arguments) to the new store and a result.  A result is either a returned
success string, returned page content, a returned `"Error: ..."` string
(represented structurally by `VfsError`), or an uncaught Python exception
(`Res.raised`).
-/

/-- Fuel-indexed helper behind `pyRange`; the fuel argument only makes the
recursion structural (hence kernel-computable), and `stop - start` fuel is
always enough since each step advances `start` by at least one. -/
def pyRangeAux (stop step : Nat) : Nat → Nat → List Nat
  | _, 0 => []
  | start, fuel + 1 =>
    if start < stop ∧ 0 < step then start :: pyRangeAux stop step (start + step) fuel else []

/-- Embeds Python `range(start, stop, step)` for natural arguments: the ascending
integers `start, start + step, ...` strictly below `stop`.  Python raises
`ValueError` when `step = 0`; this model returns `[]` in that case, and every
theorem that touches pagination assumes `0 < page_size`, the only step the
program ever passes. -/
def pyRange (stop step start : Nat) : List Nat :=
  pyRangeAux stop step start (stop - start)

/-- Embeds the page-splitting list comprehension
`[content[i:i+page_size] for i in range(0, len(content), page_size)]`
shared by `VirtualFile.__init__`, `append_to_file` and `reorganize_pages`
(`content[i:i+p]` is `(content.drop i).take p`). -/
def paginate (content : List Char) (page_size : Nat) : List (List Char) :=
  (pyRange content.length page_size 0).map (fun i => (content.drop i).take page_size)

/-- Embeds Python list subscription `l[i]` with an `Int` index: a negative
index counts from the end; `none` models the `IndexError` raised when the
index is out of bounds on either side. -/
def pyGet {α : Type} (l : List α) (i : Int) : Option α :=
  if 0 ≤ i then l.get? i.toNat
  else if 0 ≤ i + (l.length : Int) then l.get? (i + (l.length : Int)).toNat else none

/-- Embeds Python list item assignment `l[i] = v` with an `Int` index;
`none` models the `IndexError` raised on an out-of-bounds index. -/
def pySet {α : Type} (l : List α) (i : Int) (v : α) : Option (List α) :=
  if 0 ≤ i then
    if i < (l.length : Int) then some (l.set i.toNat v) else none
  else
    if 0 ≤ i + (l.length : Int) then some (l.set (i + (l.length : Int)).toNat v) else none

/-- Embeds the Python slice `s[a:]` for an arbitrary `Int` bound `a`:
a non-negative start drops that many characters (clamped), a negative start
keeps the last `-a` characters (clamped).  In particular `s[-0:] = s[0:] = s`. -/
def pySliceFrom (s : List Char) (a : Int) : List Char :=
  if 0 ≤ a then s.drop a.toNat else s.drop ((s.length : Int) + a).toNat

/-- Embeds the Python slice `s[:b]` for an arbitrary `Int` bound `b`. -/
def pySliceTo (s : List Char) (b : Int) : List Char :=
  if 0 ≤ b then s.take b.toNat else s.take ((s.length : Int) + b).toNat

/-- One stored file: the `pages` attribute of class `VirtualFile`. -/
structure VirtualFile where
  pages : List (List Char)
deriving Repr, DecidableEq

/-- Lookup in the CPython dict `self.virtual_files`, modelled as an
insertion-ordered association list (first binding of the key wins; the
store never creates duplicate keys). -/
def dictGet (m : List (String × VirtualFile)) (k : String) : Option VirtualFile :=
  match m with
  | [] => none
  | (k', v) :: rest => if k' = k then some v else dictGet rest k

/-- Assignment `d[k] = v` on the CPython dict: an existing key keeps its
position in the enumeration order, a new key is appended at the end. -/
def dictSet (m : List (String × VirtualFile)) (k : String) (v : VirtualFile) :
    List (String × VirtualFile) :=
  match m with
  | [] => [(k, v)]
  | (k', v') :: rest => if k' = k then (k, v) :: rest else (k', v') :: dictSet rest k v

/-- `d.pop(k)` / `del d[k]` on the CPython dict: removes the binding of `k`,
keeping all other bindings in order. -/
def dictPop (m : List (String × VirtualFile)) (k : String) :
    List (String × VirtualFile) :=
  match m with
  | [] => []
  | (k', v') :: rest => if k' = k then rest else (k', v') :: dictPop rest k

/-- The store: `page_size` and the insertion-ordered mapping `virtual_files`
of `VirtualFileSystem`. -/
structure VirtualFileSystem where
  page_size : Nat
  virtual_files : List (String × VirtualFile)
deriving Repr, DecidableEq

/-- The distinct `"Error: ..."` strings the program returns, represented
structurally (the rendered Python message is noted on each constructor). -/
inductive VfsError where
  /-- `"Error: No such file: '{name}'"` -/
  | noSuchFile (name : String)
  /-- `"Error: Invalid page: {page}"` -/
  | invalidPage (page : Int)
  /-- `"Error: File '{name}' already exists."` (create) and
  `"Error: File already exists: '{name}'"` (rename) -/
  | alreadyExists (name : String)
  /-- `"Error: Empty command."` -/
  | emptyCommand
  /-- `"Error: {cmd} requires at least {n} arguments."` -/
  | missingArgs (cmd : String) (n : Nat)
  /-- `"Error: Unknown command '{cmd}'."` -/
  | unknownCommand (cmd : String)
deriving Repr, DecidableEq

/-- Outcome of one method call: a returned success-message string, returned
page content (`read_file`), a returned `"Error: ..."` string, or an uncaught
Python exception. -/
inductive Res where
  | ok (msg : String)
  | content (s : List Char)
  | err (e : VfsError)
  | raised
deriving Repr, DecidableEq

/-- Embeds `os.path.join(dir, name)` for a directory path without a
trailing separator, as `dump_all` uses it. -/
def osPathJoin (dir name : String) : String := dir ++ "/" ++ name

/-- Embeds the page-writing loop `for page in ...pages: f.write(page)` used
by `dump_all` and `save_to_disk`: the bytes written are the left fold of
appends over the pages. -/
def writeFilePages (pages : List (List Char)) : List Char :=
  pages.foldl (fun acc page => acc ++ page) []

/-- `VirtualFileSystem.dump_all`.  The filesystem collaborator is modelled by
its emitted `(path, full content)` pairs, one per managed file in the dict's
enumeration (insertion) order.  The argument is `none` when the Python call
receives `None` (as `execute_command` passes for a bare `DUMP_ALL`): then
`os.path.exists(None)` raises `TypeError` (it catches only `OSError` and
`ValueError`), modelled as `Res.raised`.  A direct call relying on the
Python default argument is `dump_all st (some "dump")`. -/
def dump_all (st : VirtualFileSystem) (dump_directory : Option String) :
    List (String × List Char) × Res :=
  match dump_directory with
  | none => ([], .raised)
  | some dir =>
    (st.virtual_files.map (fun nf => (osPathJoin dir nf.1, writeFilePages nf.2.pages)),
     .ok ("All virtual files saved to '" ++ dir ++ "' directory."))

/-- `VirtualFileSystem.create_file`: fails if the name exists, otherwise
inserts `VirtualFile(content, page_size)`, whose constructor paginates. -/
def create_file (st : VirtualFileSystem) (file_name : String) (content : List Char) :
    VirtualFileSystem × Res :=
  if (dictGet st.virtual_files file_name).isSome then
    (st, .err (.alreadyExists file_name))
  else
    ({ st with virtual_files :=
        dictSet st.virtual_files file_name ⟨paginate content st.page_size⟩ },
     .ok ("File '" ++ file_name ++ "' created."))

/-- `VirtualFileSystem.read_file`.  The guard rejects `page >= len(pages)`
only; a negative `page` reaches the subscript `pages[page]`, which wraps or
raises per Python semantics (`pyGet`).  With `include_surrounding`, the
previous page's tail is `prev_page[-surrounding_chars:]` guarded by
`if prev_page else ""`, and the next page's head is
`next_page[:surrounding_chars]` guarded likewise. -/
def read_file (st : VirtualFileSystem) (file_name : String) (page : Int)
    (include_surrounding : Bool) (surrounding_chars : Int) : Res :=
  match dictGet st.virtual_files file_name with
  | none => .err (.noSuchFile file_name)
  | some file =>
    if ((file.pages.length : Int)) ≤ page then .err (.invalidPage page)
    else
      match pyGet file.pages page with
      | none => .raised
      | some content =>
        if include_surrounding then
          match (if 0 < page then pyGet file.pages (page - 1) else some []),
                (if page < (file.pages.length : Int) - 1 then pyGet file.pages (page + 1)
                 else some []) with
          | some prev_page, some next_page =>
            .content ((if prev_page = [] then [] else pySliceFrom prev_page (-surrounding_chars))
              ++ content
              ++ (if next_page = [] then [] else pySliceTo next_page surrounding_chars))
          | _, _ => .raised
        else .content content

/-- `VirtualFileSystem.reorganize_pages`: joins the file's pages and
re-paginates the concatenation. -/
def reorganize_pages (st : VirtualFileSystem) (file_name : String) :
    VirtualFileSystem × Res :=
  match dictGet st.virtual_files file_name with
  | none => (st, .err (.noSuchFile file_name))
  | some file =>
    ({ st with virtual_files :=
        dictSet st.virtual_files file_name ⟨paginate file.pages.flatten st.page_size⟩ },
     .ok ("Pages reorganized for file '" ++ file_name ++ "'."))

/-- `VirtualFileSystem.update_file`: after the `page >= len(pages)` guard,
assigns `pages[page] = new_content` (Python subscript semantics, so a
negative index wraps or raises), then immediately calls
`reorganize_pages`. -/
def update_file (st : VirtualFileSystem) (file_name : String) (page : Int)
    (new_content : List Char) : VirtualFileSystem × Res :=
  match dictGet st.virtual_files file_name with
  | none => (st, .err (.noSuchFile file_name))
  | some file =>
    if ((file.pages.length : Int)) ≤ page then (st, .err (.invalidPage page))
    else
      match pySet file.pages page new_content with
      | none => (st, .raised)
      | some pages2 =>
        let st2 : VirtualFileSystem :=
          { st with virtual_files := dictSet st.virtual_files file_name ⟨pages2⟩ }
        ((reorganize_pages st2 file_name).1,
         .ok ("File '" ++ file_name ++ "' updated at page " ++ toString page ++ "."))

/-- `VirtualFileSystem.save_to_disk`: emits the single `(path, content)` pair
for the collaborator, where a missing or empty (falsy) `file_path` defaults
to the file name. -/
def save_to_disk (st : VirtualFileSystem) (file_name : String)
    (file_path : Option String) : Option (String × List Char) × Res :=
  match dictGet st.virtual_files file_name with
  | none => (none, .err (.noSuchFile file_name))
  | some file =>
    let path : String :=
      match file_path with
      | none => file_name
      | some p => if p = "" then file_name else p
    (some (path, writeFilePages file.pages),
     .ok ("File '" ++ file_name ++ "' saved to disk at '" ++ path ++ "'."))

/-- `VirtualFileSystem.list_files`. -/
def list_files (st : VirtualFileSystem) : Res :=
  .ok ("Files: " ++ String.intercalate ", " (st.virtual_files.map Prod.fst))

/-- `VirtualFileSystem.delete_file`. -/
def delete_file (st : VirtualFileSystem) (file_name : String) :
    VirtualFileSystem × Res :=
  match dictGet st.virtual_files file_name with
  | none => (st, .err (.noSuchFile file_name))
  | some _ =>
    ({ st with virtual_files := dictPop st.virtual_files file_name },
     .ok ("File '" ++ file_name ++ "' deleted."))

/-- `VirtualFileSystem.append_to_file`: extends the page list with the pages
of `content` paginated independently; no reorganization. -/
def append_to_file (st : VirtualFileSystem) (file_name : String)
    (content : List Char) : VirtualFileSystem × Res :=
  match dictGet st.virtual_files file_name with
  | none => (st, .err (.noSuchFile file_name))
  | some file =>
    ({ st with virtual_files :=
        dictSet st.virtual_files file_name ⟨file.pages ++ paginate content st.page_size⟩ },
     .ok ("Content appended to file '" ++ file_name ++ "'."))

/-- `VirtualFileSystem.rename_file`: `virtual_files[new_name] =
virtual_files.pop(old_name)`, so the entry re-enters the dict at the end of
the enumeration order. -/
def rename_file (st : VirtualFileSystem) (old_name new_name : String) :
    VirtualFileSystem × Res :=
  match dictGet st.virtual_files old_name with
  | none => (st, .err (.noSuchFile old_name))
  | some file =>
    if (dictGet st.virtual_files new_name).isSome then
      (st, .err (.alreadyExists new_name))
    else
      ({ st with virtual_files := dictSet (dictPop st.virtual_files old_name) new_name file },
       .ok ("File '" ++ old_name ++ "' renamed to '" ++ new_name ++ "'."))

/-- `VirtualFileSystem.get_file_info`: page count and total character count. -/
def get_file_info (st : VirtualFileSystem) (file_name : String) : Res :=
  match dictGet st.virtual_files file_name with
  | none => .err (.noSuchFile file_name)
  | some file =>
    .ok ("File '" ++ file_name ++ "' has " ++ toString file.pages.length
      ++ " pages and a total size of " ++ toString (file.pages.map List.length).sum
      ++ " characters.")

/-- Accumulator pass behind `pySplit`: walks the characters, collecting the
current token in reverse in `acc`. -/
def splitWsAux : List Char → List Char → List String
  | [], acc => if acc = [] then [] else [String.mk acc.reverse]
  | c :: cs, acc =>
    if c.isWhitespace then
      (if acc = [] then [] else [String.mk acc.reverse]) ++ splitWsAux cs []
    else splitWsAux cs (c :: acc)

/-- Embeds Python `command.split()`: splits on runs of whitespace, producing
no empty tokens and ignoring leading and trailing whitespace. -/
def pySplit (s : String) : List String := splitWsAux s.data []

/-- Embeds Python `str.upper()` (ASCII case mapping suffices for the
command vocabulary). -/
def pyUpper (s : String) : String := String.mk (s.data.map Char.toUpper)

/-- Embeds `" ".join(args)`, producing the free-form content argument as a
character list. -/
def pyJoinSpace (args : List String) : List Char :=
  List.intercalate [' '] (args.map String.data)

/-- Digit-run parser behind `pyInt`: `some` of the value iff the characters
are one or more decimal digits. -/
def parseDecDigits (l : List Char) : Option Nat :=
  if l ≠ [] ∧ l.all Char.isDigit then
    some (l.foldl (fun acc c => acc * 10 + (c.toNat - 48)) 0)
  else none

/-- Embeds Python `int(s)` on command tokens: optional surrounding
whitespace, an optional sign, then decimal digits; `none` models the
`ValueError` raised otherwise.  (Pythonic underscore digit grouping is not
modelled; the program's commands never rely on it.) -/
def pyInt (s : String) : Option Int :=
  match ((s.data.dropWhile Char.isWhitespace).reverse.dropWhile Char.isWhitespace).reverse with
  | '-' :: ds => (parseDecDigits ds).map (fun n => -(n : Int))
  | '+' :: ds => (parseDecDigits ds).map (fun n => (n : Int))
  | ds => (parseDecDigits ds).map (fun n => (n : Int))

/-- Embeds Python `list.remove(x)`: drops the first occurrence of `x`. -/
def removeFirst (l : List String) (x : String) : List String :=
  match l with
  | [] => []
  | y :: ys => if y = x then ys else y :: removeFirst ys x

/-- The tail of the `READ_FILE` branch of `execute_command`:
`self.read_file(args[0], int(args[1]), include_surrounding, surrounding_chars)`
after flag extraction.  Too few remaining positional tokens raise
`IndexError`, a non-integer page token raises `ValueError`. -/
def readDispatch (st : VirtualFileSystem) (args : List String)
    (include_surrounding : Bool) (surrounding_chars : Int) :
    VirtualFileSystem × Res :=
  match args with
  | a0 :: a1 :: _ =>
    match pyInt a1 with
    | none => (st, .raised)
    | some pg => (st, read_file st a0 pg include_surrounding surrounding_chars)
  | _ => (st, .raised)

/-- The body of the `READ_FILE` branch after the arity check: removes the
first `INCLUDE_SURROUNDING` token if present, then extracts the token after
the first `SURROUNDING_CHARS` (only when one follows it — otherwise the
flag token is left in place and the default 100 is used), then dispatches
positionally. -/
def readFileCmd (st : VirtualFileSystem) (args : List String) :
    VirtualFileSystem × Res :=
  let include_surrounding := args.contains "INCLUDE_SURROUNDING"
  let args1 := if include_surrounding then removeFirst args "INCLUDE_SURROUNDING" else args
  match args1.findIdx? (fun x => x = "SURROUNDING_CHARS") with
  | some i =>
    if i + 1 < args1.length then
      match pyInt (args1.getD (i + 1) "") with
      | none => (st, .raised)
      | some sc => readDispatch st (args1.take i ++ args1.drop (i + 2)) include_surrounding sc
    else readDispatch st args1 include_surrounding 100
  | none => readDispatch st args1 include_surrounding 100

/-- `VirtualFileSystem.execute_command`: tokenizes the line, uppercases the
first token, checks the minimum arity of each command, rejoins free-form
content with single spaces, and dispatches.  The store component of the
result is the store after the dispatched method's mutation (the methods
that only read return it unchanged). -/
def execute_command (st : VirtualFileSystem) (command : String) :
    VirtualFileSystem × Res :=
  match pySplit command with
  | [] => (st, .err .emptyCommand)
  | head :: args =>
    let command_name := pyUpper head
    if command_name = "CREATE_FILE" then
      match args with
      | a0 :: a1 :: rest => create_file st a0 (pyJoinSpace (a1 :: rest))
      | _ => (st, .err (.missingArgs "CREATE_FILE" 2))
    else if command_name = "READ_FILE" then
      if args.length < 2 then (st, .err (.missingArgs "READ_FILE" 2))
      else readFileCmd st args
    else if command_name = "UPDATE_FILE" then
      match args with
      | a0 :: a1 :: a2 :: rest =>
        match pyInt a1 with
        | none => (st, .raised)
        | some pg => update_file st a0 pg (pyJoinSpace (a2 :: rest))
      | _ => (st, .err (.missingArgs "UPDATE_FILE" 3))
    else if command_name = "SAVE_TO_DISK" then
      match args with
      | a0 :: rest => (st, (save_to_disk st a0 rest.head?).2)
      | _ => (st, .err (.missingArgs "SAVE_TO_DISK" 1))
    else if command_name = "LIST_FILES" then (st, list_files st)
    else if command_name = "DELETE_FILE" then
      match args with
      | a0 :: _ => delete_file st a0
      | _ => (st, .err (.missingArgs "DELETE_FILE" 1))
    else if command_name = "APPEND_TO_FILE" then
      match args with
      | a0 :: a1 :: rest => append_to_file st a0 (pyJoinSpace (a1 :: rest))
      | _ => (st, .err (.missingArgs "APPEND_TO_FILE" 2))
    else if command_name = "RENAME_FILE" then
      match args with
      | a0 :: a1 :: _ => rename_file st a0 a1
      | _ => (st, .err (.missingArgs "RENAME_FILE" 2))
    else if command_name = "GET_FILE_INFO" then
      match args with
      | a0 :: _ => (st, get_file_info st a0)
      | _ => (st, .err (.missingArgs "GET_FILE_INFO" 1))
    else if command_name = "REORGANIZE_PAGES" then
      match args with
      | a0 :: _ => reorganize_pages st a0
      | _ => (st, .err (.missingArgs "REORGANIZE_PAGES" 1))
    else if command_name = "DUMP_ALL" then (st, (dump_all st args.head?).2)
    else (st, .err (.unknownCommand command_name))

/-- One call to a `VirtualFileSystem` method, for reasoning about sequences
of operations on one store. -/
inductive Op where
  | create (name : String) (content : List Char)
  | read (name : String) (page : Int) (include_surrounding : Bool) (surrounding_chars : Int)
  | update (name : String) (page : Int) (new_content : List Char)
  | append (name : String) (content : List Char)
  | rename (old_name new_name : String)
  | delete (name : String)
  | reorganize (name : String)
  | info (name : String)
  | listF
  | save (name : String) (path : Option String)
  | dump (dir : Option String)
deriving Repr

/-- Dispatches one `Op` to the corresponding method, returning the new store
and the method's result (the methods that do not mutate return the store
unchanged, as in the source). -/
def applyOpFull (st : VirtualFileSystem) : Op → VirtualFileSystem × Res
  | .create n c => create_file st n c
  | .read n pg incl sc => (st, read_file st n pg incl sc)
  | .update n pg c => update_file st n pg c
  | .append n c => append_to_file st n c
  | .rename o n => rename_file st o n
  | .delete n => delete_file st n
  | .reorganize n => reorganize_pages st n
  | .info n => (st, get_file_info st n)
  | .listF => (st, list_files st)
  | .save n p => (st, (save_to_disk st n p).2)
  | .dump d => (st, (dump_all st d).2)

/-- The store reached from the empty store with page size `p`
(`VirtualFileSystem.__init__`) by a sequence of operations. -/
def runOps (p : Nat) (ops : List Op) : VirtualFileSystem :=
  ops.foldl (fun st op => (applyOpFull st op).1) ⟨p, []⟩

/-- The page-size invariant of claim C10 over a store with page size `p`:
the store's configured page size is `p` and every stored page of every file
is a non-empty string of length at most `p`. -/
def StoreInv (p : Nat) (st : VirtualFileSystem) : Prop :=
  st.page_size = p ∧
    ∀ name vf, (name, vf) ∈ st.virtual_files → ∀ pg ∈ vf.pages, pg ≠ [] ∧ pg.length ≤ p

/-- Taken from the claim's words, for comparison with the code: the last
`n` characters of a string (all of it when `n` exceeds its length). -/
def lastChars (n : Int) (s : List Char) : List Char := s.drop (s.length - n.toNat)

/-- Taken from the claim's words, for comparison with the code: the first
`n` characters of a string. -/
def firstChars (n : Int) (s : List Char) : List Char := s.take n.toNat

/-- The uppercased first token of a command line (the command selector of
`execute_command`). -/
def cmdName (line : String) : String := pyUpper ((pySplit line).headD "")

/-- Concrete two-page store for counterexamples: page size 1, one file `"a"`
with pages `["a", "b"]`, reached by `create_file`. -/
def exStore2 : VirtualFileSystem := (create_file ⟨1, []⟩ "a" ['a', 'b']).1

/-- Concrete store for the dump-order counterexample: page size 1, file
`"b"` created before file `"a"`. -/
def exStore9 : VirtualFileSystem :=
  (create_file (create_file ⟨1, []⟩ "b" ['x']).1 "a" ['y']).1

/-- Concrete three-page store for the surrounding-context witness: page
size 10, one file `"a.txt"` containing `"0123456789ABCDEFGHIJklmnop"`. -/
def exStore3p : VirtualFileSystem :=
  (create_file ⟨10, []⟩ "a.txt" "0123456789ABCDEFGHIJklmnop".data).1

example : exStore2 = ⟨1, [("a", ⟨[['a'], ['b']]⟩)]⟩ := by decide

example : paginate "0123456789ABCDE".data 10 = ["0123456789".data, "ABCDE".data] := by decide

example : (update_file ⟨10, [("a", ⟨["0123456789".data, "ABCDE".data]⟩)]⟩ "a" 0 "XY".data).1
    = ⟨10, [("a", ⟨["XYABCDE".data]⟩)]⟩ := by decide

example : read_file exStore2 "a" 1 true 0 = .content ['a', 'b'] := by decide

example : read_file exStore2 "a" (-1) false 100 = .content ['b'] := by decide

example : read_file exStore2 "a" (-3) false 100 = .raised := by decide

example : (execute_command ⟨2000, []⟩ "READ_FILE a x").2 = .raised := by decide

example : (execute_command ⟨2000, []⟩ "DUMP_ALL").2 = .raised := by decide

example : (execute_command exStore2 "read_file a 0").2 = .content ['a'] := by decide

theorem pyRangeAux_congr (stop step : Nat) :
    ∀ fuel fuel' start, stop - start ≤ fuel → stop - start ≤ fuel' →
      pyRangeAux stop step start fuel = pyRangeAux stop step start fuel' := by
  intro fuel
  induction fuel with
  | zero =>
    intro fuel' start h h'
    cases fuel' with
    | zero => rfl
    | succ f' =>
      simp only [pyRangeAux]
      rw [if_neg (by omega)]
  | succ f ih =>
    intro fuel' start h h'
    cases fuel' with
    | zero =>
      simp only [pyRangeAux]
      rw [if_neg (by omega)]
    | succ f' =>
      simp only [pyRangeAux]
      by_cases hc : start < stop ∧ 0 < step
      · obtain ⟨h1, h2⟩ := hc
        rw [if_pos ⟨h1, h2⟩, if_pos ⟨h1, h2⟩, ih f' (start + step) (by omega) (by omega)]
      · rw [if_neg hc, if_neg hc]

/-- The defining recurrence of `pyRange`, independent of fuel. -/
theorem pyRange_eq (stop step start : Nat) :
    pyRange stop step start =
      if start < stop ∧ 0 < step then start :: pyRange stop step (start + step) else [] := by
  by_cases hc : start < stop ∧ 0 < step
  · obtain ⟨h1, h2⟩ := hc
    rw [if_pos ⟨h1, h2⟩]
    show pyRangeAux stop step start (stop - start) = _
    have hf : stop - start = (stop - start - 1) + 1 := by omega
    rw [hf]
    simp only [pyRangeAux]
    rw [if_pos ⟨h1, h2⟩]
    have := pyRangeAux_congr stop step (stop - start - 1) (stop - (start + step))
      (start + step) (by omega) (by omega)
    rw [this]
    rfl
  · rw [if_neg hc]
    show pyRangeAux stop step start (stop - start) = []
    cases hf : stop - start with
    | zero => rfl
    | succ f =>
      simp only [pyRangeAux]
      rw [if_neg hc]

theorem pyRange_slice_flatten (c : List Char) (p : Nat) (hp : 0 < p) (i : Nat) :
    ((pyRange c.length p i).map (fun j => (c.drop j).take p)).flatten = c.drop i := by
  rw [pyRange_eq]
  by_cases hc : i < c.length
  · rw [if_pos ⟨hc, hp⟩, List.map_cons, List.flatten_cons,
      pyRange_slice_flatten c p hp (i + p)]
    rw [(List.drop_drop p i c).symm, List.take_append_drop]
  · rw [if_neg (by omega)]
    simp [List.drop_eq_nil_of_le (by omega : c.length ≤ i)]
termination_by c.length - i
decreasing_by omega

theorem pyRange_length (stop p : Nat) (hp : 0 < p) (i : Nat) :
    (pyRange stop p i).length = (stop - i + p - 1) / p := by
  rw [pyRange_eq]
  by_cases hc : i < stop
  · rw [if_pos ⟨hc, hp⟩, List.length_cons, pyRange_length stop p hp (i + p)]
    by_cases hip : i + p ≤ stop
    · have e1 : stop - (i + p) + p - 1 = stop - i - 1 := by omega
      have e2 : stop - i + p - 1 = (stop - i - 1) + p := by omega
      rw [e1, e2, Nat.add_div_right _ hp]
    · have e1 : stop - (i + p) + p - 1 = p - 1 := by omega
      rw [e1, Nat.div_eq_of_lt (by omega)]
      have h1 : 1 * p ≤ stop - i + p - 1 := by omega
      have h2 : stop - i + p - 1 < 2 * p := by omega
      rw [Nat.div_eq_of_lt_le h1 (by omega : stop - i + p - 1 < (1 + 1) * p)]
  · rw [if_neg (by omega)]
    have e1 : stop - i = 0 := by omega
    simp [e1, Nat.div_eq_of_lt (by omega : p - 1 < p)]
termination_by stop - i
decreasing_by omega

theorem pyRange_get? (stop p : Nat) (hp : 0 < p) (i k : Nat) :
    (pyRange stop p i).get? k = if i + k * p < stop then some (i + k * p) else none := by
  rw [pyRange_eq]
  by_cases hc : i < stop
  · rw [if_pos ⟨hc, hp⟩]
    cases k with
    | zero => simp [hc]
    | succ k' =>
      have step : ((i : Nat) :: pyRange stop p (i + p)).get? (k' + 1)
          = (pyRange stop p (i + p)).get? k' := rfl
      rw [step, pyRange_get? stop p hp (i + p) k']
      have e : i + p + k' * p = i + (k' + 1) * p := by ring
      rw [e]
  · rw [if_neg (by omega)]
    have : ¬ (i + k * p < stop) := by
      have : 0 ≤ k * p := Nat.zero_le _
      omega
    rw [if_neg this]
    rfl
termination_by stop - i
decreasing_by omega

/-- Concatenating the pages produced by `paginate` restores the content. -/
theorem paginate_flatten (c : List Char) (p : Nat) (hp : 0 < p) :
    (paginate c p).flatten = c := by
  have h := pyRange_slice_flatten c p hp 0
  simpa [paginate] using h

/-- `paginate` produces `⌈len/p⌉` pages (which is `0` for empty content). -/
theorem paginate_length (c : List Char) (p : Nat) (hp : 0 < p) :
    (paginate c p).length = (c.length + p - 1) / p := by
  show ((pyRange c.length p 0).map _).length = _
  rw [List.length_map, pyRange_length c.length p hp 0, Nat.sub_zero]

/-- Page `k` of `paginate c p` is the substring of `c` at offset `k * p`. -/
theorem paginate_get? (c : List Char) (p : Nat) (hp : 0 < p) (k : Nat) :
    (paginate c p).get? k =
      if k * p < c.length then some ((c.drop (k * p)).take p) else none := by
  show ((pyRange c.length p 0).map _).get? k = _
  rw [List.get?_map, pyRange_get? c.length p hp 0 k]
  by_cases h : k * p < c.length
  · rw [if_pos (by omega), if_pos h]
    simp
  · rw [if_neg (by omega), if_neg h]
    rfl

/-- Every page `paginate` produces is non-empty and no longer than the page
size. -/
theorem mem_paginate (c : List Char) (p : Nat) (hp : 0 < p) (pg : List Char)
    (h : pg ∈ paginate c p) : pg ≠ [] ∧ pg.length ≤ p := by
  obtain ⟨k, hk⟩ := List.mem_iff_get?.1 h
  rw [paginate_get? c p hp k] at hk
  by_cases hlt : k * p < c.length
  · rw [if_pos hlt] at hk
    have hpg : pg = (c.drop (k * p)).take p := by
      injection hk with h'
      exact h'.symm
    subst hpg
    have hlen : ((c.drop (k * p)).take p).length = min p (c.length - k * p) := by
      rw [List.length_take, List.length_drop]
    constructor
    · intro hnil
      rw [hnil] at hlen
      simp at hlen
      omega
    · omega
  · rw [if_neg hlt] at hk
    cases hk

/-- Every page of `paginate` except possibly the last has length exactly the
page size. -/
theorem paginate_full_pages (c : List Char) (p : Nat) (hp : 0 < p) (k : Nat)
    (h : k + 1 < (paginate c p).length) :
    ∃ pg, (paginate c p).get? k = some pg ∧ pg.length = p := by
  rw [paginate_length c p hp] at h
  have h2 : (k + 2) * p ≤ c.length + p - 1 :=
    (Nat.le_div_iff_mul_le hp).1 (by omega)
  have h3 : (k + 2) * p = k * p + 2 * p := by ring
  have hk : k * p + p < c.length := by omega
  rw [paginate_get? c p hp k, if_pos (by omega)]
  refine ⟨_, rfl, ?_⟩
  rw [List.length_take, List.length_drop]
  omega

theorem dictGet_dictSet_self (m : List (String × VirtualFile)) (k : String)
    (v : VirtualFile) : dictGet (dictSet m k v) k = some v := by
  induction m with
  | nil => simp [dictSet, dictGet]
  | cons hd t ih =>
    obtain ⟨k', v'⟩ := hd
    by_cases hk : k' = k
    · simp [dictSet, dictGet, hk]
    · simp [dictSet, dictGet, hk, ih]

theorem dictGet_dictSet_ne (m : List (String × VirtualFile)) (k k' : String)
    (v : VirtualFile) (hk : k' ≠ k) : dictGet (dictSet m k v) k' = dictGet m k' := by
  induction m with
  | nil =>
    show (if k = k' then some v else none) = none
    rw [if_neg (Ne.symm hk)]
  | cons hd t ih =>
    obtain ⟨k0, v0⟩ := hd
    by_cases h0 : k0 = k
    · subst h0
      rw [dictSet, if_pos rfl, dictGet, dictGet, if_neg (Ne.symm hk), if_neg (Ne.symm hk)]
    · rw [dictSet, if_neg h0, dictGet, dictGet]
      by_cases h1 : k0 = k'
      · rw [if_pos h1, if_pos h1]
      · rw [if_neg h1, if_neg h1, ih]

theorem dictSet_dictSet (m : List (String × VirtualFile)) (k : String)
    (v w : VirtualFile) : dictSet (dictSet m k v) k w = dictSet m k w := by
  induction m with
  | nil => simp [dictSet]
  | cons hd t ih =>
    obtain ⟨k0, v0⟩ := hd
    by_cases h0 : k0 = k
    · simp [dictSet, h0]
    · simp [dictSet, h0, ih]

theorem mem_dictSet (m : List (String × VirtualFile)) (k : String) (v : VirtualFile)
    (x : String × VirtualFile) (h : x ∈ dictSet m k v) : x ∈ m ∨ x = (k, v) := by
  induction m with
  | nil =>
    simp [dictSet] at h
    exact Or.inr h
  | cons hd t ih =>
    obtain ⟨k0, v0⟩ := hd
    by_cases h0 : k0 = k
    · rw [dictSet, if_pos h0] at h
      rcases List.mem_cons.1 h with h1 | h1
      · exact Or.inr h1
      · exact Or.inl (List.mem_cons_of_mem _ h1)
    · rw [dictSet, if_neg h0] at h
      rcases List.mem_cons.1 h with h1 | h1
      · exact Or.inl (h1 ▸ List.mem_cons_self _ _)
      · rcases ih h1 with h2 | h2
        · exact Or.inl (List.mem_cons_of_mem _ h2)
        · exact Or.inr h2

theorem mem_dictPop (m : List (String × VirtualFile)) (k : String)
    (x : String × VirtualFile) (h : x ∈ dictPop m k) : x ∈ m := by
  induction m with
  | nil => simpa [dictPop] using h
  | cons hd t ih =>
    obtain ⟨k0, v0⟩ := hd
    by_cases h0 : k0 = k
    · rw [dictPop, if_pos h0] at h
      exact List.mem_cons_of_mem _ h
    · rw [dictPop, if_neg h0] at h
      rcases List.mem_cons.1 h with h1 | h1
      · exact h1 ▸ List.mem_cons_self _ _
      · exact List.mem_cons_of_mem _ (ih h1)

theorem dictGet_mem (m : List (String × VirtualFile)) (k : String) (v : VirtualFile)
    (h : dictGet m k = some v) : (k, v) ∈ m := by
  induction m with
  | nil => simp [dictGet] at h
  | cons hd t ih =>
    obtain ⟨k0, v0⟩ := hd
    by_cases h0 : k0 = k
    · rw [dictGet, if_pos h0] at h
      injection h with h
      subst h0 h
      exact List.mem_cons_self _ _
    · rw [dictGet, if_neg h0] at h
      exact List.mem_cons_of_mem _ (ih h)

theorem foldl_append_eq_flatten (l : List (List Char)) :
    ∀ acc : List Char, l.foldl (fun a pg => a ++ pg) acc = acc ++ l.flatten := by
  induction l with
  | nil => intro acc; simp
  | cons hd t ih =>
    intro acc
    simp only [List.foldl_cons, List.flatten_cons, ih, List.append_assoc]

/-- The bytes `dump_all`/`save_to_disk` write for one file are the
concatenation of its pages. -/
theorem writeFilePages_eq_flatten (pages : List (List Char)) :
    writeFilePages pages = pages.flatten := by
  rw [writeFilePages, foldl_append_eq_flatten]
  rfl

/-- C1: for every content string and every page_size > 0, `paginate`
produces consecutive non-overlapping substrings of the content starting at
offset 0 (page `k` is exactly the slice of length `page_size` at offset
`k * page_size`), and concatenating the produced pages in order reproduces
the content exactly. -/
theorem paginate_round_trip (content : List Char) (page_size : Nat)
    (hp : 0 < page_size) :
    (paginate content page_size).flatten = content ∧
    ∀ k : Nat, k < (paginate content page_size).length →
      (paginate content page_size).get? k
        = some ((content.drop (k * page_size)).take page_size) := by
  refine ⟨paginate_flatten content page_size hp, ?_⟩
  intro k hk
  rw [paginate_length content page_size hp] at hk
  have h2 : (k + 1) * page_size ≤ content.length + page_size - 1 :=
    (Nat.le_div_iff_mul_le hp).1 hk
  have h3 : (k + 1) * page_size = k * page_size + page_size := by ring
  rw [paginate_get? content page_size hp k, if_pos (by omega)]

/-- Witness for C1 at content `"abcde"`, page size 2. -/
theorem paginate_round_trip_witness :
    0 < 2 ∧
      ((paginate "abcde".data 2).flatten = "abcde".data ∧
        ∀ k : Nat, k < (paginate "abcde".data 2).length →
          (paginate "abcde".data 2).get? k
            = some (("abcde".data.drop (k * 2)).take 2)) :=
  ⟨by decide, paginate_round_trip "abcde".data 2 (by decide)⟩

/-- C3 counterexample: `paginate` applied to the empty string produces zero
pages, not one empty page, and after `create_file(name, "")` the page count
is 0, so `read_file(name, 0)` fails with the invalid-page error instead of
returning the empty string. -/
theorem paginate_empty_counterexample :
    paginate [] 5 = [] ∧ paginate [] 5 ≠ [[]] ∧
      (create_file ⟨5, []⟩ "a" []).1 = ⟨5, [("a", ⟨[]⟩)]⟩ ∧
      read_file (create_file ⟨5, []⟩ "a" []).1 "a" 0 false 100
        = Res.err (VfsError.invalidPage 0) := by decide

/-- C3 amended: for every page_size > 0 `paginate` produces
`⌈len(content)/page_size⌉` pages, which is zero (not one empty page) for
empty content; consequently after `create_file(name, "")` the file exists
with zero pages and `read_file(name, 0)` fails with the invalid-page
error. -/
theorem paginate_empty_amended (c : List Char) (p : Nat) (hp : 0 < p)
    (st : VirtualFileSystem) (name : String)
    (habs : dictGet st.virtual_files name = none) :
    (paginate c p).length = (c.length + p - 1) / p ∧
    paginate [] p = [] ∧
    dictGet (create_file st name []).1.virtual_files name = some ⟨[]⟩ ∧
    read_file (create_file st name []).1 name 0 false 100
      = Res.err (VfsError.invalidPage 0) := by
  have hcf : (create_file st name []).1.virtual_files
      = dictSet st.virtual_files name ⟨[]⟩ := by
    simp [create_file, habs]
    rfl
  have hget : dictGet (create_file st name []).1.virtual_files name = some ⟨[]⟩ := by
    rw [hcf]
    exact dictGet_dictSet_self _ _ _
  refine ⟨paginate_length c p hp, rfl, hget, ?_⟩
  rw [read_file, hget]
  rfl

/-- Witness for the amended C3 at content `"abc"`, page size 2, empty
store. -/
theorem paginate_empty_amended_witness :
    (0 < 2 ∧ dictGet ([] : List (String × VirtualFile)) "a" = none) ∧
      ((paginate "abc".data 2).length = ("abc".data.length + 2 - 1) / 2 ∧
        paginate [] 2 = [] ∧
        dictGet (create_file ⟨2, []⟩ "a" []).1.virtual_files "a" = some ⟨[]⟩ ∧
        read_file (create_file ⟨2, []⟩ "a" []).1 "a" 0 false 100
          = Res.err (VfsError.invalidPage 0)) :=
  ⟨⟨by decide, by decide⟩, paginate_empty_amended "abc".data 2 (by decide) ⟨2, []⟩ "a" (by decide)⟩

/-- C4: `append_to_file` on an existing file leaves the file's existing
pages unchanged, appends exactly `paginate(content, page_size)` after them
and performs no reorganization; consequently the concatenation of all pages
afterwards equals the old concatenated content followed by `content`.
Other files are untouched. -/
theorem append_to_file_spec (st : VirtualFileSystem) (name : String)
    (file : VirtualFile) (content : List Char) (hp : 0 < st.page_size)
    (hf : dictGet st.virtual_files name = some file) :
    dictGet (append_to_file st name content).1.virtual_files name
      = some ⟨file.pages ++ paginate content st.page_size⟩ ∧
    (file.pages ++ paginate content st.page_size).flatten
      = file.pages.flatten ++ content ∧
    (∀ other, other ≠ name →
      dictGet (append_to_file st name content).1.virtual_files other
        = dictGet st.virtual_files other) ∧
    (append_to_file st name content).2
      = Res.ok ("Content appended to file '" ++ name ++ "'.") := by
  have h1 : (append_to_file st name content).1.virtual_files
      = dictSet st.virtual_files name ⟨file.pages ++ paginate content st.page_size⟩ := by
    rw [append_to_file, hf]
  refine ⟨?_, ?_, ?_, ?_⟩
  · rw [h1]
    exact dictGet_dictSet_self _ _ _
  · rw [List.flatten_append, paginate_flatten content st.page_size hp]
  · intro other ho
    rw [h1, dictGet_dictSet_ne _ _ _ _ ho]
  · rw [append_to_file, hf]

/-- Witness for C4: append `"cd"` to the one-character-page file `"a"` of
`exStore2`. -/
theorem append_to_file_spec_witness :
    (0 < exStore2.page_size ∧ dictGet exStore2.virtual_files "a" = some ⟨[['a'], ['b']]⟩) ∧
      (dictGet (append_to_file exStore2 "a" "cd".data).1.virtual_files "a"
          = some ⟨[['a'], ['b']] ++ paginate "cd".data exStore2.page_size⟩ ∧
        ([['a'], ['b']] ++ paginate "cd".data exStore2.page_size).flatten
          = [['a'], ['b']].flatten ++ "cd".data ∧
        (∀ other, other ≠ "a" →
          dictGet (append_to_file exStore2 "a" "cd".data).1.virtual_files other
            = dictGet exStore2.virtual_files other) ∧
        (append_to_file exStore2 "a" "cd".data).2
          = Res.ok ("Content appended to file '" ++ "a" ++ "'.")) :=
  ⟨⟨by decide, by decide⟩,
    append_to_file_spec exStore2 "a" ⟨[['a'], ['b']]⟩ "cd".data (by decide) (by decide)⟩

/-- C2: for an existing file, an in-range page index and new content of
arbitrary length, `update_file` replaces the page and immediately
reorganizes: afterwards every resulting page except possibly the last has
length exactly `page_size`, and the concatenation of the resulting pages
equals the concatenation of the old pages with page `i` replaced by
`new_content`. -/
theorem update_file_spec (st : VirtualFileSystem) (name : String)
    (file : VirtualFile) (i : Nat) (new_content : List Char)
    (hp : 0 < st.page_size)
    (hf : dictGet st.virtual_files name = some file)
    (hi : i < file.pages.length) :
    ∃ pages' : List (List Char),
      dictGet (update_file st name (i : Int) new_content).1.virtual_files name
        = some ⟨pages'⟩ ∧
      (∀ k : Nat, k + 1 < pages'.length →
        ∃ pg, pages'.get? k = some pg ∧ pg.length = st.page_size) ∧
      pages'.flatten = (file.pages.set i new_content).flatten := by
  have hset : pySet file.pages (i : Int) new_content
      = some (file.pages.set i new_content) := by
    rw [pySet, if_pos (by omega), if_pos (by exact_mod_cast hi)]
    simp
  have hupd : (update_file st name (i : Int) new_content).1
      = (reorganize_pages
          { st with virtual_files :=
              dictSet st.virtual_files name ⟨file.pages.set i new_content⟩ } name).1 := by
    simp only [update_file, hf, hset]
    rw [if_neg (by omega)]
  have hreorg : (update_file st name (i : Int) new_content).1.virtual_files
      = dictSet st.virtual_files name
          ⟨paginate (file.pages.set i new_content).flatten st.page_size⟩ := by
    rw [hupd]
    simp only [reorganize_pages, dictGet_dictSet_self]
    rw [dictSet_dictSet]
  refine ⟨paginate (file.pages.set i new_content).flatten st.page_size, ?_, ?_, ?_⟩
  · rw [hreorg]
    exact dictGet_dictSet_self _ _ _
  · intro k hk
    exact paginate_full_pages _ _ hp k hk
  · exact paginate_flatten _ _ hp

/-- Witness for C2: the spec's §8 scenario — page size 10, pages
`["0123456789", "ABCDE"]`, replace page 0 by `"XY"`. -/
theorem update_file_spec_witness :
    (0 < 10 ∧
        dictGet [("a", (⟨["0123456789".data, "ABCDE".data]⟩ : VirtualFile))] "a"
          = some ⟨["0123456789".data, "ABCDE".data]⟩ ∧
        0 < (["0123456789".data, "ABCDE".data] : List (List Char)).length) ∧
      ∃ pages' : List (List Char),
        dictGet (update_file ⟨10, [("a", ⟨["0123456789".data, "ABCDE".data]⟩)]⟩
            "a" (0 : Int) "XY".data).1.virtual_files "a" = some ⟨pages'⟩ ∧
        (∀ k : Nat, k + 1 < pages'.length →
          ∃ pg, pages'.get? k = some pg ∧ pg.length = 10) ∧
        pages'.flatten = ((["0123456789".data, "ABCDE".data] : List (List Char)).set 0 "XY".data).flatten :=
  ⟨⟨by decide, by decide, by decide⟩,
    update_file_spec ⟨10, [("a", ⟨["0123456789".data, "ABCDE".data]⟩)]⟩ "a"
      ⟨["0123456789".data, "ABCDE".data]⟩ 0 "XY".data (by decide) (by decide) (by decide)⟩

/-- C9 counterexample: with file `"b"` created before file `"a"`,
`dump_all` emits the pair for `"b"` first although `"a" < "b"` — the pairs
come out in dict insertion order, not ascending name order. -/
theorem dump_order_counterexample :
    (dump_all exStore9 (some "d")).1 = [("d/b", ['x']), ("d/a", ['y'])] ∧
      "d/a".data < "d/b".data := by
  constructor
  · decide
  · decide

/-- C9 amended: `dump_all` emits exactly one `(path, content)` pair per
managed file, whose content is the in-order concatenation of that file's
pages, in the store mapping's insertion order (creation order, with a
renamed file moving to the end) rather than ascending name order. -/
theorem dump_all_pairs_amended (st : VirtualFileSystem) (dir : String) :
    (dump_all st (some dir)).1
      = st.virtual_files.map (fun nf => (osPathJoin dir nf.1, nf.2.pages.flatten)) := by
  simp only [dump_all, writeFilePages_eq_flatten]

/-- C7: every failing operation leaves the whole store state unchanged; in
particular `create_file` on an existing name fails with the already-exists
error leaving the state (hence the existing file's pages) unmodified, and
`rename_file` to an existing `new_name` fails with the already-exists error
leaving both files' entries and pages unmodified. -/
theorem failed_ops_preserve_state (st : VirtualFileSystem) (op : Op) (e : VfsError) :
    ((applyOpFull st op).2 = Res.err e → (applyOpFull st op).1 = st) ∧
    (∀ name c, dictGet st.virtual_files name ≠ none →
      create_file st name c = (st, Res.err (VfsError.alreadyExists name))) ∧
    (∀ o n, dictGet st.virtual_files o ≠ none → dictGet st.virtual_files n ≠ none →
      rename_file st o n = (st, Res.err (VfsError.alreadyExists n))) := by
  refine ⟨?_, ?_, ?_⟩
  · intro herr
    cases op with
    | create name c =>
      by_cases h : (dictGet st.virtual_files name).isSome = true
      · simp only [applyOpFull, create_file, if_pos h]
      · simp only [applyOpFull, create_file, if_neg h] at herr
        simp at herr
    | read name pg incl sc => rfl
    | update name pg c =>
      cases hd : dictGet st.virtual_files name with
      | none => simp only [applyOpFull, update_file, hd]
      | some file =>
        simp only [applyOpFull, update_file, hd] at herr ⊢
        by_cases hlen : ((file.pages.length : Int)) ≤ pg
        · rw [if_pos hlen]
        · simp only [if_neg hlen] at herr
          cases hset : pySet file.pages pg c with
          | none =>
            simp only [hset] at herr
            simp at herr
          | some pages2 =>
            simp only [hset] at herr
            simp at herr
    | append name c =>
      cases hd : dictGet st.virtual_files name with
      | none => simp only [applyOpFull, append_to_file, hd]
      | some file =>
        simp only [applyOpFull, append_to_file, hd] at herr
        simp at herr
    | rename o n =>
      cases hd : dictGet st.virtual_files o with
      | none => simp only [applyOpFull, rename_file, hd]
      | some file =>
        simp only [applyOpFull, rename_file, hd] at herr ⊢
        by_cases h2 : (dictGet st.virtual_files n).isSome = true
        · rw [if_pos h2]
        · simp only [if_neg h2] at herr
          simp at herr
    | delete name =>
      cases hd : dictGet st.virtual_files name with
      | none => simp only [applyOpFull, delete_file, hd]
      | some file =>
        simp only [applyOpFull, delete_file, hd] at herr
        simp at herr
    | reorganize name =>
      cases hd : dictGet st.virtual_files name with
      | none => simp only [applyOpFull, reorganize_pages, hd]
      | some file =>
        simp only [applyOpFull, reorganize_pages, hd] at herr
        simp at herr
    | info name => rfl
    | listF => rfl
    | save name p => rfl
    | dump d => rfl
  · intro name c h
    cases hd : dictGet st.virtual_files name with
    | none => exact absurd hd h
    | some f => simp [create_file, hd]
  · intro o n ho hn
    cases hdo : dictGet st.virtual_files o with
    | none => exact absurd hdo ho
    | some fo =>
      cases hdn : dictGet st.virtual_files n with
      | none => exact absurd hdn hn
      | some fn => simp [rename_file, hdo, hdn]

/-- Witness for C7: creating over the existing `"a"` of `exStore2` and
renaming `"b"` onto the existing `"a"` of `exStore9` both fail and leave
the stores exactly as they were. -/
theorem failed_ops_preserve_state_witness :
    create_file exStore2 "a" ['z'] = (exStore2, Res.err (VfsError.alreadyExists "a")) ∧
    rename_file exStore9 "b" "a" = (exStore9, Res.err (VfsError.alreadyExists "a")) :=
  ⟨(failed_ops_preserve_state exStore2 Op.listF VfsError.emptyCommand).2.1 "a" ['z']
      (by decide),
    (failed_ops_preserve_state exStore9 Op.listF VfsError.emptyCommand).2.2 "b" "a"
      (by decide) (by decide)⟩

theorem pyGet_ofNat {α : Type} (l : List α) (i : Nat) :
    pyGet l (i : Int) = l.get? i := by
  rw [pyGet, if_pos (by omega)]
  rw [Int.toNat_ofNat]

theorem pySliceFrom_neg (s : List Char) (sc : Int) (h : 0 < sc) :
    pySliceFrom s (-sc) = lastChars sc s := by
  rw [pySliceFrom, if_neg (by omega), lastChars]
  congr 1
  omega

theorem pySliceTo_nonneg (s : List Char) (sc : Int) (h : 0 ≤ sc) :
    pySliceTo s sc = firstChars sc s := by
  rw [pySliceTo, if_pos h, firstChars]

/-- The previous-page expression of `read_file`, rewritten: for `sc = 0` it
is the whole previous page (Python `s[-0:] = s`), otherwise its last `sc`
characters. -/
theorem prev_guard_eq (pg : List Char) (sc : Int) (hsc : 0 ≤ sc) :
    (if pg = [] then [] else pySliceFrom pg (-sc))
      = if sc = 0 then pg else lastChars sc pg := by
  by_cases hpg : pg = []
  · subst hpg
    by_cases h0 : sc = 0 <;> simp [h0, lastChars]
  · rw [if_neg hpg]
    by_cases h0 : sc = 0
    · subst h0
      rw [if_pos rfl]
      simp [pySliceFrom]
    · rw [if_neg h0, pySliceFrom_neg pg sc (by omega)]

/-- The next-page expression of `read_file`, rewritten: the first `sc`
characters of the next page. -/
theorem next_guard_eq (pg : List Char) (sc : Int) (hsc : 0 ≤ sc) :
    (if pg = [] then [] else pySliceTo pg sc) = firstChars sc pg := by
  by_cases hpg : pg = []
  · subst hpg
    simp [firstChars]
  · rw [if_neg hpg, pySliceTo_nonneg pg sc hsc]

/-- C5 counterexample: reading page 1 of the two-page file of `exStore2`
with include_surrounding and surrounding_chars = 0 returns the ENTIRE
previous page followed by page 1 (Python `s[-0:]` is the whole string),
not the last-0-characters-of-it (empty) prefix the claim requires. -/
theorem read_surrounding_zero_counterexample :
    read_file exStore2 "a" 1 true 0 = Res.content ['a', 'b'] ∧
      Res.content ['a', 'b'] ≠ Res.content ['b'] := by decide

/-- C5 amended: for an existing file, an in-range page index `i` and any
surrounding_chars `sc ≥ 0`, `read_file` with include_surrounding never
raises and returns: the previous-page part (empty when `i = 0`; the whole
previous page when `sc = 0`, because the Python slice `s[-0:]` is `s`;
otherwise the last `sc` characters of page `i - 1`), then the entire text
of page `i`, then the first `sc` characters of page `i + 1` (empty when
`i` is the last page). -/
theorem read_surrounding_amended (st : VirtualFileSystem) (name : String)
    (file : VirtualFile) (i : Nat) (sc : Int)
    (hf : dictGet st.virtual_files name = some file)
    (hi : i < file.pages.length) (hsc : 0 ≤ sc) :
    read_file st name (i : Int) true sc
      = Res.content
          ((if i = 0 then []
            else if sc = 0 then file.pages.getD (i - 1) []
            else lastChars sc (file.pages.getD (i - 1) []))
            ++ file.pages.getD i []
            ++ (if i = file.pages.length - 1 then []
                else firstChars sc (file.pages.getD (i + 1) []))) := by
  have hgI : pyGet file.pages (i : Int) = some (file.pages.getD i []) := by
    rw [pyGet_ofNat, List.getD_eq_get file.pages [] hi, List.get?_eq_get hi]
  have hprev : (if 0 < (i : Int) then pyGet file.pages ((i : Int) - 1) else some [])
      = some (if i = 0 then [] else file.pages.getD (i - 1) []) := by
    by_cases hi0 : i = 0
    · subst hi0
      rw [if_neg (by omega), if_pos rfl]
    · rw [if_pos (by omega), if_neg hi0]
      have hcast : ((i : Int) - 1) = ((i - 1 : Nat) : Int) := by omega
      rw [hcast, pyGet_ofNat, List.getD_eq_get file.pages [] (by omega),
        List.get?_eq_get (by omega)]
  have hnext : (if (i : Int) < (file.pages.length : Int) - 1
        then pyGet file.pages ((i : Int) + 1) else some [])
      = some (if i = file.pages.length - 1 then [] else file.pages.getD (i + 1) []) := by
    by_cases hil : i = file.pages.length - 1
    · rw [if_neg (by omega), if_pos hil]
    · rw [if_pos (by omega), if_neg hil]
      have hcast : ((i : Int) + 1) = ((i + 1 : Nat) : Int) := by omega
      rw [hcast, pyGet_ofNat, List.getD_eq_get file.pages [] (by omega),
        List.get?_eq_get (by omega)]
  have hPrevEq : (if (if i = 0 then [] else file.pages.getD (i - 1) []) = [] then []
        else pySliceFrom (if i = 0 then [] else file.pages.getD (i - 1) []) (-sc))
      = (if i = 0 then []
         else if sc = 0 then file.pages.getD (i - 1) []
         else lastChars sc (file.pages.getD (i - 1) [])) := by
    by_cases hi0 : i = 0
    · simp [hi0]
    · rw [if_neg hi0, if_neg hi0, prev_guard_eq _ sc hsc]
  have hNextEq : (if (if i = file.pages.length - 1 then []
          else file.pages.getD (i + 1) []) = [] then []
        else pySliceTo (if i = file.pages.length - 1 then []
          else file.pages.getD (i + 1) []) sc)
      = (if i = file.pages.length - 1 then []
         else firstChars sc (file.pages.getD (i + 1) [])) := by
    by_cases hil : i = file.pages.length - 1
    · simp [hil, firstChars]
    · rw [if_neg hil, if_neg hil, next_guard_eq _ sc hsc]
  simp only [read_file, hf]
  rw [if_neg (by omega : ¬((file.pages.length : Int) ≤ (i : Int)))]
  simp only [hgI, hprev, hnext]
  rw [hPrevEq, hNextEq, if_pos trivial]

/-- Witness for the amended C5: the spec's 3-page example — page size 10,
middle page with surrounding_chars 5 returns the last 5 characters of page
0, all of page 1 and the first 5 characters of page 2. -/
theorem read_surrounding_amended_witness :
    (dictGet exStore3p.virtual_files "a.txt"
        = some ⟨["0123456789".data, "ABCDEFGHIJ".data, "klmnop".data]⟩ ∧
      1 < (["0123456789".data, "ABCDEFGHIJ".data, "klmnop".data] : List (List Char)).length ∧
      (0 : Int) ≤ 5) ∧
      read_file exStore3p "a.txt" (1 : Int) true 5
        = Res.content
            ((if 1 = 0 then []
              else if (5 : Int) = 0
                then (["0123456789".data, "ABCDEFGHIJ".data, "klmnop".data] : List (List Char)).getD (1 - 1) []
              else lastChars 5 ((["0123456789".data, "ABCDEFGHIJ".data, "klmnop".data] : List (List Char)).getD (1 - 1) []))
              ++ (["0123456789".data, "ABCDEFGHIJ".data, "klmnop".data] : List (List Char)).getD 1 []
              ++ (if 1 = (["0123456789".data, "ABCDEFGHIJ".data, "klmnop".data] : List (List Char)).length - 1 then []
                  else firstChars 5 ((["0123456789".data, "ABCDEFGHIJ".data, "klmnop".data] : List (List Char)).getD (1 + 1) []))) :=
  ⟨⟨by decide, by decide, by decide⟩,
    read_surrounding_amended exStore3p "a.txt"
      ⟨["0123456789".data, "ABCDEFGHIJ".data, "klmnop".data]⟩ 1 5
      (by decide) (by decide) (by decide)⟩


theorem pyGet_in_range (l : List (List Char)) (page : Int) (h0 : 0 ≤ page)
    (hl : page < (l.length : Int)) : pyGet l page = some (l.getD page.toNat []) := by
  rw [pyGet, if_pos h0, List.getD_eq_get l [] (by omega), List.get?_eq_get (by omega)]

theorem pyGet_wrap (l : List (List Char)) (page : Int)
    (h0 : -(l.length : Int) ≤ page) (hl : page < 0) :
    pyGet l page = some (l.getD (page + (l.length : Int)).toNat []) := by
  rw [pyGet, if_neg (by omega), if_pos (by omega),
    List.getD_eq_get l [] (by omega), List.get?_eq_get (by omega)]

theorem pyGet_too_neg {α : Type} (l : List α) (page : Int)
    (h : page < -(l.length : Int)) : pyGet l page = none := by
  rw [pyGet, if_neg (by omega), if_neg (by omega)]

theorem pySet_in_range {α : Type} (l : List α) (page : Int) (v : α) (h0 : 0 ≤ page)
    (hl : page < (l.length : Int)) : pySet l page v = some (l.set page.toNat v) := by
  rw [pySet, if_pos h0, if_pos hl]

theorem pySet_too_neg {α : Type} (l : List α) (page : Int) (v : α)
    (h : page < -(l.length : Int)) : pySet l page v = none := by
  rw [pySet, if_neg (by omega), if_neg (by omega)]

/-- When the file exists and the page guard passes, `read_file` either
raises or returns content — never an error string. -/
theorem read_file_cases (st : VirtualFileSystem) (name : String) (page : Int)
    (incl : Bool) (sc : Int) (file : VirtualFile)
    (hd : dictGet st.virtual_files name = some file)
    (hlen : ¬ ((file.pages.length : Int) ≤ page)) :
    read_file st name page incl sc = Res.raised ∨
      ∃ s, read_file st name page incl sc = Res.content s := by
  simp only [read_file, hd, if_neg hlen]
  cases hg : pyGet file.pages page with
  | none => exact Or.inl rfl
  | some c =>
    cases incl with
    | false => exact Or.inr ⟨c, rfl⟩
    | true =>
      cases hA : (if 0 < page then pyGet file.pages (page - 1) else some []) with
      | none => exact Or.inl rfl
      | some prev =>
        cases hB : (if page < (file.pages.length : Int) - 1
            then pyGet file.pages (page + 1) else some []) with
        | none => exact Or.inl rfl
        | some next => exact Or.inr ⟨_, rfl⟩

/-- When the file exists and the page guard passes, `update_file` either
raises or succeeds — never an error string. -/
theorem update_file_cases (st : VirtualFileSystem) (name : String) (page : Int)
    (nc : List Char) (file : VirtualFile)
    (hd : dictGet st.virtual_files name = some file)
    (hlen : ¬ ((file.pages.length : Int) ≤ page)) :
    (update_file st name page nc).2 = Res.raised ∨
      ∃ m, (update_file st name page nc).2 = Res.ok m := by
  simp only [update_file, hd, if_neg hlen]
  cases hs : pySet file.pages page nc with
  | none => exact Or.inl rfl
  | some pages2 => exact Or.inr ⟨_, rfl⟩

/-- C6 counterexample: on the two-page file of `exStore2`, the integer page
index `-1` is out of range for the page count 2 (it is not in `[0, 2)`),
yet `read_file` returns the last page without any error (Python negative
indices wrap), and the index `-3` makes `read_file` raise `IndexError`
rather than return an invalid-page error. -/
theorem negative_page_counterexample :
    read_file exStore2 "a" (-1) false 100 = Res.content ['b'] ∧
      Res.content ['b'] ≠ Res.err (VfsError.invalidPage (-1)) ∧
      read_file exStore2 "a" (-3) false 100 = Res.raised ∧
      ¬ ((0 : Int) ≤ -1) := by decide

/-- C6 amended: for an existing file, `read_file` and `update_file` return
the invalid-page error exactly when `page ≥ page count` (and the
no-such-file error exactly when the name is absent); an in-range index
`0 ≤ page < page count` reads or replaces precisely that page without
error.  A negative index is NOT rejected: for `-count ≤ page < 0` the
subscript wraps around and addresses page `page + count`, and for
`page < -count` the methods raise `IndexError` instead of returning an
error string. -/
theorem page_errors_amended (st : VirtualFileSystem) (name : String)
    (page : Int) (nc : List Char) (sc : Int) (incl : Bool) :
    (read_file st name page incl sc = Res.err (VfsError.noSuchFile name)
        ↔ dictGet st.virtual_files name = none) ∧
    ((update_file st name page nc).2 = Res.err (VfsError.noSuchFile name)
        ↔ dictGet st.virtual_files name = none) ∧
    (∀ file, dictGet st.virtual_files name = some file →
      ((read_file st name page incl sc = Res.err (VfsError.invalidPage page)
          ↔ (file.pages.length : Int) ≤ page) ∧
        ((update_file st name page nc).2 = Res.err (VfsError.invalidPage page)
          ↔ (file.pages.length : Int) ≤ page) ∧
        (0 ≤ page → page < (file.pages.length : Int) →
          read_file st name page false sc
              = Res.content (file.pages.getD page.toNat []) ∧
            (update_file st name page nc).2
              = Res.ok ("File '" ++ name ++ "' updated at page "
                  ++ toString page ++ ".") ∧
            dictGet (update_file st name page nc).1.virtual_files name
              = some ⟨paginate (file.pages.set page.toNat nc).flatten st.page_size⟩) ∧
        (page < -(file.pages.length : Int) →
          read_file st name page incl sc = Res.raised ∧
            (update_file st name page nc).2 = Res.raised ∧
            (update_file st name page nc).1 = st) ∧
        (-(file.pages.length : Int) ≤ page → page < 0 →
          read_file st name page false sc
            = Res.content (file.pages.getD (page + (file.pages.length : Int)).toNat [])))) := by
  refine ⟨?_, ?_, ?_⟩
  · cases hd : dictGet st.virtual_files name with
    | none => simp [read_file, hd]
    | some file =>
      constructor
      · intro hcontra
        exfalso
        by_cases hlen : ((file.pages.length : Int)) ≤ page
        · simp only [read_file, hd, if_pos hlen] at hcontra
          simp at hcontra
        · rcases read_file_cases st name page incl sc file hd hlen with h | ⟨s, h⟩ <;>
            rw [h] at hcontra <;> simp at hcontra
      · intro h
        simp at h
  · cases hd : dictGet st.virtual_files name with
    | none => simp [update_file, hd]
    | some file =>
      constructor
      · intro hcontra
        exfalso
        by_cases hlen : ((file.pages.length : Int)) ≤ page
        · simp only [update_file, hd, if_pos hlen] at hcontra
          simp at hcontra
        · rcases update_file_cases st name page nc file hd hlen with h | ⟨m, h⟩ <;>
            rw [h] at hcontra <;> simp at hcontra
      · intro h
        simp at h
  · intro file hd
    refine ⟨?_, ?_, ?_, ?_, ?_⟩
    · by_cases hlen : ((file.pages.length : Int)) ≤ page
      · simp only [read_file, hd, if_pos hlen]
        simp [hlen]
      · simp only [iff_iff_implies_and_implies]
        constructor
        · intro hcontra
          rcases read_file_cases st name page incl sc file hd hlen with h | ⟨s, h⟩ <;>
            rw [h] at hcontra <;> simp at hcontra
        · intro h
          exact absurd h hlen
    · by_cases hlen : ((file.pages.length : Int)) ≤ page
      · simp only [update_file, hd, if_pos hlen]
        simp [hlen]
      · simp only [iff_iff_implies_and_implies]
        constructor
        · intro hcontra
          rcases update_file_cases st name page nc file hd hlen with h | ⟨m, h⟩ <;>
            rw [h] at hcontra <;> simp at hcontra
        · intro h
          exact absurd h hlen
    · intro h0 hl
      refine ⟨?_, ?_, ?_⟩
      · simp only [read_file, hd, if_neg (by omega : ¬ ((file.pages.length : Int) ≤ page)),
          pyGet_in_range file.pages page h0 hl]
        rfl
      · simp only [update_file, hd, if_neg (by omega : ¬ ((file.pages.length : Int) ≤ page)),
          pySet_in_range file.pages page nc h0 hl]
      · simp only [update_file, hd, if_neg (by omega : ¬ ((file.pages.length : Int) ≤ page)),
          pySet_in_range file.pages page nc h0 hl]
        simp only [reorganize_pages, dictGet_dictSet_self]
    · intro hneg
      refine ⟨?_, ?_, ?_⟩
      · simp only [read_file, hd, if_neg (by omega : ¬ ((file.pages.length : Int) ≤ page)),
          pyGet_too_neg file.pages page hneg]
      · simp only [update_file, hd, if_neg (by omega : ¬ ((file.pages.length : Int) ≤ page)),
          pySet_too_neg file.pages page nc hneg]
      · simp only [update_file, hd, if_neg (by omega : ¬ ((file.pages.length : Int) ≤ page)),
          pySet_too_neg file.pages page nc hneg]
    · intro h0 hl
      simp only [read_file, hd, if_neg (by omega : ¬ ((file.pages.length : Int) ≤ page)),
        pyGet_wrap file.pages page h0 hl]
      rfl

/-- Witness for the amended C6: on the two-page file of `exStore2`, page 5
is rejected with the invalid-page error and page 0 is read back. -/
theorem page_errors_amended_witness :
    read_file exStore2 "a" 5 false 100 = Res.err (VfsError.invalidPage 5) ∧
      read_file exStore2 "a" 0 false 100
        = Res.content ((⟨[['a'], ['b']]⟩ : VirtualFile).pages.getD ((0 : Int)).toNat []) :=
  ⟨(((page_errors_amended exStore2 "a" 5 [] 100 false).2.2 ⟨[['a'], ['b']]⟩
      (by decide)).1).mpr (by decide),
    (((page_errors_amended exStore2 "a" 0 [] 100 false).2.2 ⟨[['a'], ['b']]⟩
      (by decide)).2.2.1 (by decide) (by decide)).1⟩

/-- Every operation preserves the page-size invariant: each mutation stores
only pages produced by `paginate` (create, append, reorganize, and update
via its immediate reorganize) or pages that were already stored. -/
theorem applyOp_preserves_inv (p : Nat) (hp : 0 < p) (st : VirtualFileSystem)
    (hinv : StoreInv p st) (op : Op) : StoreInv p (applyOpFull st op).1 := by
  obtain ⟨hps, hmem⟩ := hinv
  cases op with
  | create name c =>
    by_cases h : (dictGet st.virtual_files name).isSome = true
    · simp only [applyOpFull, create_file, if_pos h]
      exact ⟨hps, hmem⟩
    · simp only [applyOpFull, create_file, if_neg h]
      refine ⟨hps, ?_⟩
      intro n vf hm pg hpg
      rcases mem_dictSet _ _ _ _ hm with hm' | hm'
      · exact hmem n vf hm' pg hpg
      · have hvf : vf = ⟨paginate c st.page_size⟩ := congrArg Prod.snd hm'
        rw [hvf] at hpg
        rw [hps] at hpg
        exact mem_paginate c p hp pg hpg
  | read name pg incl sc => exact ⟨hps, hmem⟩
  | update name pg c =>
    cases hd : dictGet st.virtual_files name with
    | none =>
      simp only [applyOpFull, update_file, hd]
      exact ⟨hps, hmem⟩
    | some file =>
      by_cases hlen : ((file.pages.length : Int)) ≤ pg
      · simp only [applyOpFull, update_file, hd, if_pos hlen]
        exact ⟨hps, hmem⟩
      · cases hset : pySet file.pages pg c with
        | none =>
          simp only [applyOpFull, update_file, hd, if_neg hlen, hset]
          exact ⟨hps, hmem⟩
        | some pages2 =>
          simp only [applyOpFull, update_file, hd, if_neg hlen, hset,
            reorganize_pages, dictGet_dictSet_self, dictSet_dictSet]
          refine ⟨hps, ?_⟩
          intro n vf hm pg' hpg
          rcases mem_dictSet _ _ _ _ hm with hm' | hm'
          · exact hmem n vf hm' pg' hpg
          · have hvf : vf = ⟨paginate pages2.flatten st.page_size⟩ :=
              congrArg Prod.snd hm'
            rw [hvf] at hpg
            rw [hps] at hpg
            exact mem_paginate _ p hp pg' hpg
  | append name c =>
    cases hd : dictGet st.virtual_files name with
    | none =>
      simp only [applyOpFull, append_to_file, hd]
      exact ⟨hps, hmem⟩
    | some file =>
      simp only [applyOpFull, append_to_file, hd]
      refine ⟨hps, ?_⟩
      intro n vf hm pg hpg
      rcases mem_dictSet _ _ _ _ hm with hm' | hm'
      · exact hmem n vf hm' pg hpg
      · have hvf : vf = ⟨file.pages ++ paginate c st.page_size⟩ :=
          congrArg Prod.snd hm'
        rw [hvf] at hpg
        rcases List.mem_append.1 hpg with hpg' | hpg'
        · exact hmem name file (dictGet_mem _ _ _ hd) pg hpg'
        · rw [hps] at hpg'
          exact mem_paginate c p hp pg hpg'
  | rename o n =>
    cases hd : dictGet st.virtual_files o with
    | none =>
      simp only [applyOpFull, rename_file, hd]
      exact ⟨hps, hmem⟩
    | some file =>
      by_cases h2 : (dictGet st.virtual_files n).isSome = true
      · simp only [applyOpFull, rename_file, hd, if_pos h2]
        exact ⟨hps, hmem⟩
      · simp only [applyOpFull, rename_file, hd, if_neg h2]
        refine ⟨hps, ?_⟩
        intro n' vf hm pg hpg
        rcases mem_dictSet _ _ _ _ hm with hm' | hm'
        · exact hmem n' vf (mem_dictPop _ _ _ hm') pg hpg
        · have hvf : vf = file := congrArg Prod.snd hm'
          rw [hvf] at hpg
          exact hmem o file (dictGet_mem _ _ _ hd) pg hpg
  | delete name =>
    cases hd : dictGet st.virtual_files name with
    | none =>
      simp only [applyOpFull, delete_file, hd]
      exact ⟨hps, hmem⟩
    | some file =>
      simp only [applyOpFull, delete_file, hd]
      exact ⟨hps, fun n vf hm => hmem n vf (mem_dictPop _ _ _ hm)⟩
  | reorganize name =>
    cases hd : dictGet st.virtual_files name with
    | none =>
      simp only [applyOpFull, reorganize_pages, hd]
      exact ⟨hps, hmem⟩
    | some file =>
      simp only [applyOpFull, reorganize_pages, hd]
      refine ⟨hps, ?_⟩
      intro n vf hm pg hpg
      rcases mem_dictSet _ _ _ _ hm with hm' | hm'
      · exact hmem n vf hm' pg hpg
      · have hvf : vf = ⟨paginate file.pages.flatten st.page_size⟩ :=
          congrArg Prod.snd hm'
        rw [hvf] at hpg
        rw [hps] at hpg
        exact mem_paginate _ p hp pg hpg
  | info name => exact ⟨hps, hmem⟩
  | listF => exact ⟨hps, hmem⟩
  | save name pth => exact ⟨hps, hmem⟩
  | dump d => exact ⟨hps, hmem⟩

/-- C10: in every store state reachable from an empty store with page size
`p > 0` by any sequence of operations, every stored page of every file is a
non-empty string of length at most `p`; consequently a file whose content
(the concatenation of its pages) is empty has zero stored pages. -/
theorem reachable_pages_invariant (p : Nat) (hp : 0 < p) (ops : List Op) :
    ∀ name vf, (name, vf) ∈ (runOps p ops).virtual_files →
      (∀ pg ∈ vf.pages, pg ≠ [] ∧ pg.length ≤ p) ∧
      (vf.pages.flatten = [] → vf.pages = []) := by
  have hrun : StoreInv p (runOps p ops) := by
    rw [runOps]
    have hstep : ∀ st, StoreInv p st →
        StoreInv p (ops.foldl (fun st op => (applyOpFull st op).1) st) := by
      induction ops with
      | nil => intro st h; exact h
      | cons o t ih =>
        intro st h
        exact ih _ (applyOp_preserves_inv p hp st h o)
    refine hstep ⟨p, []⟩ ⟨rfl, ?_⟩
    intro n vf h
    exact absurd h (List.not_mem_nil _)
  intro name vf hm
  have h1 := hrun.2 name vf hm
  refine ⟨h1, ?_⟩
  intro hflat
  cases hpg : vf.pages with
  | nil => rfl
  | cons a l =>
    exfalso
    have ha := h1 a (hpg ▸ List.mem_cons_self a l)
    rw [hpg] at hflat
    rw [List.flatten_cons, List.append_eq_nil] at hflat
    exact ha.1 hflat.1

/-- Witness for C10: a concrete operation sequence — create, oversized and
empty updates, append, reorganize, rename, and a create of empty content —
with page size 2. -/
theorem reachable_pages_invariant_witness :
    0 < 2 ∧
      ∀ name vf,
        (name, vf) ∈ (runOps 2
            [Op.create "f" "abcde".data, Op.update "f" 0 "XYZQRST".data,
             Op.append "f" "uv".data, Op.reorganize "f", Op.update "f" 1 [],
             Op.rename "f" "g", Op.create "h" []]).virtual_files →
          (∀ pg ∈ vf.pages, pg ≠ [] ∧ pg.length ≤ 2) ∧
          (vf.pages.flatten = [] → vf.pages = []) :=
  ⟨by decide,
    reachable_pages_invariant 2 (by decide)
      [Op.create "f" "abcde".data, Op.update "f" 0 "XYZQRST".data,
       Op.append "f" "uv".data, Op.reorganize "f", Op.update "f" 1 [],
       Op.rename "f" "g", Op.create "h" []]⟩

theorem create_file_not_raised (st : VirtualFileSystem) (n : String) (c : List Char) :
    (create_file st n c).2 ≠ Res.raised := by
  by_cases h : (dictGet st.virtual_files n).isSome = true
  · simp [create_file, h]
  · simp [create_file, h]

theorem save_to_disk_not_raised (st : VirtualFileSystem) (n : String)
    (pth : Option String) : (save_to_disk st n pth).2 ≠ Res.raised := by
  cases hd : dictGet st.virtual_files n with
  | none => simp [save_to_disk, hd]
  | some f => simp [save_to_disk, hd]

theorem delete_file_not_raised (st : VirtualFileSystem) (n : String) :
    (delete_file st n).2 ≠ Res.raised := by
  cases hd : dictGet st.virtual_files n with
  | none => simp [delete_file, hd]
  | some f => simp [delete_file, hd]

theorem append_to_file_not_raised (st : VirtualFileSystem) (n : String)
    (c : List Char) : (append_to_file st n c).2 ≠ Res.raised := by
  cases hd : dictGet st.virtual_files n with
  | none => simp [append_to_file, hd]
  | some f => simp [append_to_file, hd]

theorem rename_file_not_raised (st : VirtualFileSystem) (o n : String) :
    (rename_file st o n).2 ≠ Res.raised := by
  cases hd : dictGet st.virtual_files o with
  | none => simp [rename_file, hd]
  | some f =>
    by_cases h2 : (dictGet st.virtual_files n).isSome = true
    · simp [rename_file, hd, h2]
    · simp [rename_file, hd, h2]

theorem get_file_info_not_raised (st : VirtualFileSystem) (n : String) :
    get_file_info st n ≠ Res.raised := by
  cases hd : dictGet st.virtual_files n with
  | none => simp [get_file_info, hd]
  | some f => simp [get_file_info, hd]

theorem reorganize_pages_not_raised (st : VirtualFileSystem) (n : String) :
    (reorganize_pages st n).2 ≠ Res.raised := by
  cases hd : dictGet st.virtual_files n with
  | none => simp [reorganize_pages, hd]
  | some f => simp [reorganize_pages, hd]

/-- C8 counterexample: `execute_command` raises instead of returning an
error string — `READ_FILE a x` reaches `int("x")`, which raises
`ValueError` uncaught, and a bare `DUMP_ALL` passes `None` to `dump_all`,
where `os.path.exists(None)` raises `TypeError` instead of using the
default directory `"dump"`. -/
theorem execute_raises_counterexample :
    (execute_command ⟨2000, []⟩ "READ_FILE a x").2 = Res.raised ∧
      (execute_command ⟨2000, []⟩ "DUMP_ALL").2 = Res.raised := by decide

/-- C8 amended: `execute_command` returns a result string (success or
error) and never raises for every command line whose command word is not
`READ_FILE`, `UPDATE_FILE` or `DUMP_ALL` — including empty input, unknown
commands and arity violations.  (`READ_FILE`/`UPDATE_FILE` raise
`ValueError` on a non-integer page or surrounding-chars token — there is no
InvalidArgument error string — or `IndexError` on a too-negative page, and
a bare `DUMP_ALL` raises instead of defaulting to `"dump"`; see the
counterexample.)  The `0 < page_size` hypothesis mirrors that Python's
`range` would raise for a zero page size, which the model's total
`pyRange` cannot exhibit. -/
theorem execute_no_raise (st : VirtualFileSystem) (line : String)
    (hp : 0 < st.page_size)
    (h1 : cmdName line ≠ "READ_FILE")
    (h2 : cmdName line ≠ "UPDATE_FILE")
    (h3 : cmdName line ≠ "DUMP_ALL") :
    (execute_command st line).2 ≠ Res.raised := by
  cases hsp : pySplit line with
  | nil => simp [execute_command, hsp]
  | cons head args =>
    rw [cmdName, hsp, List.headD_cons] at h1 h2 h3
    simp only [execute_command, hsp]
    by_cases c1 : pyUpper head = "CREATE_FILE"
    · rw [if_pos c1]
      match args with
      | [] => simp
      | [a0] => simp
      | a0 :: a1 :: rest => exact create_file_not_raised st a0 (pyJoinSpace (a1 :: rest))
    · rw [if_neg c1, if_neg h1, if_neg h2]
      by_cases c4 : pyUpper head = "SAVE_TO_DISK"
      · rw [if_pos c4]
        match args with
        | [] => simp
        | a0 :: rest => exact save_to_disk_not_raised st a0 rest.head?
      · rw [if_neg c4]
        by_cases c5 : pyUpper head = "LIST_FILES"
        · rw [if_pos c5]
          simp [list_files]
        · rw [if_neg c5]
          by_cases c6 : pyUpper head = "DELETE_FILE"
          · rw [if_pos c6]
            match args with
            | [] => simp
            | a0 :: rest => exact delete_file_not_raised st a0
          · rw [if_neg c6]
            by_cases c7 : pyUpper head = "APPEND_TO_FILE"
            · rw [if_pos c7]
              match args with
              | [] => simp
              | [a0] => simp
              | a0 :: a1 :: rest =>
                exact append_to_file_not_raised st a0 (pyJoinSpace (a1 :: rest))
            · rw [if_neg c7]
              by_cases c8 : pyUpper head = "RENAME_FILE"
              · rw [if_pos c8]
                match args with
                | [] => simp
                | [a0] => simp
                | a0 :: a1 :: rest => exact rename_file_not_raised st a0 a1
              · rw [if_neg c8]
                by_cases c9 : pyUpper head = "GET_FILE_INFO"
                · rw [if_pos c9]
                  match args with
                  | [] => simp
                  | a0 :: rest => exact get_file_info_not_raised st a0
                · rw [if_neg c9]
                  by_cases c10 : pyUpper head = "REORGANIZE_PAGES"
                  · rw [if_pos c10]
                    match args with
                    | [] => simp
                    | a0 :: rest => exact reorganize_pages_not_raised st a0
                  · rw [if_neg c10, if_neg h3]
                    simp

/-- Witness for the amended C8: `LIST_FILES` on an empty store returns a
string without raising. -/
theorem execute_no_raise_witness :
    (0 < (2000 : Nat) ∧ cmdName "LIST_FILES" ≠ "READ_FILE" ∧
        cmdName "LIST_FILES" ≠ "UPDATE_FILE" ∧ cmdName "LIST_FILES" ≠ "DUMP_ALL") ∧
      (execute_command ⟨2000, []⟩ "LIST_FILES").2 ≠ Res.raised :=
  ⟨⟨by decide, by decide, by decide, by decide⟩,
    execute_no_raise ⟨2000, []⟩ "LIST_FILES" (by decide) (by decide) (by decide)
      (by decide)⟩
